import Mathlib

set_option maxRecDepth 4000

/-!
Shallow embedding of the position risk controller of the crypto-trading-bot
repository: the Binance futures trading adapter
(`src/adapters/exchanges/binance/binance_futures_trading_adapter.py`) and the
helper variants (`src/helpers/binance/futures_trading_helper.py`,
`src/binance_futures_trading_helper.py`).

The exchange gateway is modelled as a script of responses that successive
gateway calls consume; every call is fallible.  Stateful methods are embedded
as fuel-bounded functions that thread the script and record the externally
visible effects (position fetches, cancels, order submissions, notification
sends) in order.
-/

namespace CryptoBot

/-- The string constant `"long"` used by the source for position sides. -/
def sLong : String := "long"

/-- The string constant `"short"` used by the source for position sides. -/
def sShort : String := "short"

/-- The string constant `"open"` used for order statuses. -/
def sOpen : String := "open"

/-- The string constant `"closed"`, a non-open order status. -/
def sClosed : String := "closed"

/-- The string constant `"sell"` used for order sides. -/
def sSell : String := "sell"

/-- The string constant `"buy"` used for order sides. -/
def sBuy : String := "buy"

/-- Tag for the notification sent after a stop-loss close. -/
def msgStopLoss : String := "stop_loss"

/-- Tag for the notification sent after a take-profit close. -/
def msgTakeProfit : String := "take_profit"

/-- Error taxonomy of the gateway: any call may raise (the code never
inspects the error beyond succeeded / failed). -/
inductive Err where
  | gatewayUnavailable
  | emptyBook
  | orderRejected
deriving DecidableEq, Repr

/-- Result of a single scripted gateway call. -/
inductive GwRes (α : Type) where
  | ok (a : α)
  | err (e : Err)
deriving DecidableEq, Repr

/-- A raw position entry as returned by `binance.fetch_positions`:
`side` is the gateway-reported side string (or absent), `positionAmt` is the
signed amount parsed from the raw `positionAmt` string (`none` models the
empty string checked by the adapter), and the remaining fields mirror
`entryPrice`, `notional`, `percentage` and `unRealizedProfit`. -/
structure PosInfo where
  side : Option String
  positionAmt : Option ℚ
  entryPrice : ℚ
  notional : ℚ
  percentage : ℚ
  unRealizedProfit : ℚ
deriving DecidableEq, Repr

/-- `side in ["long", "short"]` — the openness test of `get_open_positions`. -/
def openSide (s : Option String) : Bool :=
  s == some sLong || s == some sShort

/-- The 7-tuple returned by `get_open_positions`:
`(side, size, entry_price, position_open, notional, percentage, pnl)`. -/
structure PositionTuple where
  side : Option String
  size : Option ℚ
  entry_price : Option ℚ
  position_open : Bool
  notional : Option ℚ
  percentage : Option ℚ
  pnl : Option ℚ
deriving DecidableEq, Repr

/-- `BinanceFuturesTradingAdapter.get_open_positions`, given the list returned
by `fetch_positions`.  The loop body returns on the first entry; an empty list
yields the all-`None` tuple.  The size is
`float(position["info"]["positionAmt"].replace("-", ""))` when the raw string
is non-empty (absolute value of the signed amount) and `0.0` otherwise. -/
def get_open_positions : List PosInfo → PositionTuple
  | [] => ⟨none, none, none, false, none, none, none⟩
  | p :: _ =>
    ⟨p.side,
      some (match p.positionAmt with | none => 0 | some a => |a|),
      some p.entryPrice,
      openSide p.side,
      some p.notional,
      some p.percentage,
      some p.unRealizedProfit⟩

/-- Scripted gateway: each list holds the responses that successive calls of
the corresponding kind consume, in order.  `books` pairs are `(bid, ask)`.
An exhausted list behaves as a connectivity failure. -/
structure Script where
  posReads : List (GwRes (List PosInfo))
  books : List (GwRes (ℚ × ℚ))
  cancels : List (GwRes Unit)
  creates : List (GwRes Unit)
  orderReads : List (GwRes (List String))
deriving DecidableEq, Repr

/-- Consume the next `fetch_positions` response. -/
def takePos (g : Script) : GwRes (List PosInfo) × Script :=
  match g.posReads with
  | [] => (.err .gatewayUnavailable, g)
  | r :: rs => (r, { g with posReads := rs })

/-- Consume the next `fetch_order_book` response. -/
def takeBook (g : Script) : GwRes (ℚ × ℚ) × Script :=
  match g.books with
  | [] => (.err .gatewayUnavailable, g)
  | r :: rs => (r, { g with books := rs })

/-- Consume the next `cancel_all_orders` response. -/
def takeCancel (g : Script) : GwRes Unit × Script :=
  match g.cancels with
  | [] => (.err .gatewayUnavailable, g)
  | r :: rs => (r, { g with cancels := rs })

/-- Consume the next `create_order` response. -/
def takeCreate (g : Script) : GwRes Unit × Script :=
  match g.creates with
  | [] => (.err .gatewayUnavailable, g)
  | r :: rs => (r, { g with creates := rs })

/-- Consume the next `fetch_orders` response (a list of order statuses). -/
def takeOrders (g : Script) : GwRes (List String) × Script :=
  match g.orderReads with
  | [] => (.err .gatewayUnavailable, g)
  | r :: rs => (r, { g with orderReads := rs })

/-- Externally visible effects of a run, recorded in the order they occur. -/
inductive Effect where
  | fetchPositions (side : Option String) (size : Option ℚ)
  | cancelAllOrders
  | fetchOrderBook (bid ask : ℚ)
  | createOrder (side : String) (price : ℚ) (amount : ℚ)
  | sleep
  | fetchOrders
  | sendMessage (kind : String)
deriving DecidableEq, Repr

/-- Outcome of one iteration of the `while True` body of `close_position`. -/
inductive CycleOut where
  | closed
  | again
  | raised (e : Err)
deriving DecidableEq, Repr

/-- One iteration of the `while True` loop of
`BinanceFuturesTradingAdapter.close_position`: read a fresh snapshot; break
when no position is open; otherwise cancel all orders, read the top of book,
submit the closing limit order (SELL at the rounded ask to close a LONG, BUY
at the rounded bid to close a SHORT) for the snapshot's size, and sleep.
`p2p` is `binance.price_to_precision` for the symbol, kept abstract.
When `position_open` holds the fetch returned a position, so `size` is
present; `getD` only discharges the unreachable branch. -/
def close_cycle (p2p : ℚ → ℚ) (g : Script) : CycleOut × Script × List Effect :=
  match takePos g with
  | (.err e, g1) => (.raised e, g1, [])
  | (.ok ps, g1) =>
    let t := get_open_positions ps
    let tr1 := [Effect.fetchPositions t.side t.size]
    match t.position_open with
    | false => (.closed, g1, tr1)
    | true =>
      match takeCancel g1 with
      | (.err e, g2) => (.raised e, g2, tr1)
      | (.ok _, g2) =>
        let tr2 := tr1 ++ [Effect.cancelAllOrders]
        match takeBook g2 with
        | (.err e, g3) => (.raised e, g3, tr2)
        | (.ok (bid, ask), g3) =>
          let tr3 := tr2 ++ [Effect.fetchOrderBook bid ask]
          let size := t.size.getD 0
          match t.side == some sLong, t.side == some sShort with
          | true, _ =>
            match takeCreate g3 with
            | (.err e, g4) => (.raised e, g4, tr3)
            | (.ok _, g4) =>
              (.again, g4,
                tr3 ++ [Effect.createOrder sSell (p2p ask) size, Effect.sleep])
          | false, true =>
            match takeCreate g3 with
            | (.err e, g4) => (.raised e, g4, tr3)
            | (.ok _, g4) =>
              (.again, g4,
                tr3 ++ [Effect.createOrder sBuy (p2p bid) size, Effect.sleep])
          | false, false => (.again, g3, tr3 ++ [Effect.sleep])

/-- Result of running a controller method against a script: it returned
normally, an exception escaped it, or the fuel bound was reached while the
loop was still running. -/
inductive RunResult where
  | done (g : Script) (tr : List Effect)
  | raised (e : Err) (g : Script) (tr : List Effect)
  | outOfFuel (g : Script) (tr : List Effect)
deriving DecidableEq, Repr

/-- The effect trace of a run, whatever its outcome. -/
def RunResult.trace : RunResult → List Effect
  | .done _ tr => tr
  | .raised _ _ tr => tr
  | .outOfFuel _ tr => tr

/-- Whether an exception escaped the run. -/
def RunResult.isRaised : RunResult → Bool
  | .raised _ _ _ => true
  | _ => false

/-- `BinanceFuturesTradingAdapter.close_position`: the fuel-bounded unfolding
of the `while True` loop, one `close_cycle` per fuel unit.  The loop returns
(`done`) only when a fresh snapshot reports no open position; an exception in
any gateway call inside the body escapes (`raised`) — the source has no
try/except inside this method. -/
def close_position (p2p : ℚ → ℚ) : ℕ → Script → RunResult
  | 0, g => .outOfFuel g []
  | Nat.succ fuel, g =>
    match close_cycle p2p g with
    | (.closed, g1, tr) => .done g1 tr
    | (.raised e, g1, tr) => .raised e g1 tr
    | (.again, g1, tr) =>
      match close_position p2p fuel g1 with
      | .done g2 tr2 => .done g2 (tr ++ tr2)
      | .raised e g2 tr2 => .raised e g2 (tr ++ tr2)
      | .outOfFuel g2 tr2 => .outOfFuel g2 (tr ++ tr2)

/-- Python's `round(x, 2)`, modelled on rationals as round-half-up:
`⌊100 * x + 1 / 2⌋ / 100`, written with integer numerator/denominator
arithmetic so that it evaluates by kernel reduction
(`100 * x + 1 / 2 = (200 * x.num + x.den) / (2 * x.den)` and Int division is
euclidean, i.e. floor for a positive divisor).  `round2_eq_floor` below proves
the equation to the floor formula.  (The concrete inputs used below are all
away from exact `.xx5` ties, where every round-to-nearest convention
agrees.) -/
def round2 (x : ℚ) : ℚ :=
  mkRat ((200 * x.num + (x.den : ℤ)) / (2 * (x.den : ℤ))) 100

/-- The three possible decisions of the PnL threshold evaluator. -/
inductive CloseAction where
  | noAction
  | stopLoss
  | takeProfit
deriving DecidableEq, Repr

/-- Branch structure of `BinanceFuturesTradingHelper.close_pnl_position`
(both helper variants, `src/binance_futures_trading_helper.py` and
`src/helpers/binance/futures_trading_helper.py`): compare the raw
`percentage` from the snapshot against `loss`, then `target`. -/
def close_pnl_decision (percent : Option ℚ) (loss target : ℚ) : CloseAction :=
  match percent with
  | none => .noAction
  | some p =>
    if p < loss then .stopLoss
    else if p ≥ target then .takeProfit
    else .noAction

/-- Branch structure of `BinanceFuturesTradingAdapter.close_pnl_position`:
guard `percent is not None and position_open`, then compare
`round(percent, 2)` against `loss`, then `target`. -/
def close_pnl_decision_adapter (percent : Option ℚ) (position_open : Bool)
    (loss target : ℚ) : CloseAction :=
  match percent with
  | none => .noAction
  | some p =>
    if position_open then
      if round2 p < loss then .stopLoss
      else if round2 p ≥ target then .takeProfit
      else .noAction
    else .noAction

/-- `BinanceFuturesTradingAdapter.close_pnl_position` with its effect trace:
fetch a snapshot; when a position is open and its rounded PnL percent breaches
a threshold (the branch structure is `close_pnl_decision_adapter`), run
`close_position` and only then send the notification message.  A failure
inside `close_position` escapes this method as well. -/
def close_pnl_position (p2p : ℚ → ℚ) (fuel : ℕ) (g : Script)
    (loss target : ℚ) : RunResult :=
  match takePos g with
  | (.err e, g1) => .raised e g1 []
  | (.ok ps, g1) =>
    let t := get_open_positions ps
    let tr1 := [Effect.fetchPositions t.side t.size]
    match close_pnl_decision_adapter t.percentage t.position_open loss target with
    | .noAction => .done g1 tr1
    | .stopLoss =>
      match close_position p2p fuel g1 with
      | .done g2 tr2 => .done g2 (tr1 ++ tr2 ++ [Effect.sendMessage msgStopLoss])
      | .raised e g2 tr2 => .raised e g2 (tr1 ++ tr2)
      | .outOfFuel g2 tr2 => .outOfFuel g2 (tr1 ++ tr2)
    | .takeProfit =>
      match close_position p2p fuel g1 with
      | .done g2 tr2 => .done g2 (tr1 ++ tr2 ++ [Effect.sendMessage msgTakeProfit])
      | .raised e g2 tr2 => .raised e g2 (tr1 ++ tr2)
      | .outOfFuel g2 tr2 => .outOfFuel g2 (tr1 ++ tr2)

/-- `BinanceFuturesTradingAdapter.close_allowed_positions`: runs
`cancel_all_orders` then `close_pnl_position` inside `try/except Exception`,
so every escaping exception is caught and logged; the method always returns
normally (or is still looping when the fuel runs out). -/
def close_allowed_positions (p2p : ℚ → ℚ) (fuel : ℕ) (g : Script)
    (loss target : ℚ) : RunResult :=
  match takeCancel g with
  | (.err _, g1) => .done g1 []
  | (.ok _, g1) =>
    match close_pnl_position p2p fuel g1 loss target with
    | .done g2 tr2 => .done g2 (Effect.cancelAllOrders :: tr2)
    | .raised _ g2 tr2 => .done g2 (Effect.cancelAllOrders :: tr2)
    | .outOfFuel g2 tr2 => .outOfFuel g2 (Effect.cancelAllOrders :: tr2)

/-- Result of a boolean query method run against a script. -/
inductive BoolResult where
  | done (b : Bool) (g : Script) (tr : List Effect)
  | raised (e : Err) (g : Script) (tr : List Effect)
deriving DecidableEq, Repr

/-- The boolean a query returned, or `none` when an exception escaped it. -/
def BoolResult.value : BoolResult → Option Bool
  | .done b _ _ => some b
  | .raised _ _ _ => none

/-- The effect trace of a boolean query. -/
def BoolResult.trace : BoolResult → List Effect
  | .done _ _ tr => tr
  | .raised _ _ tr => tr

/-- `BinanceFuturesTradingAdapter.has_exceeded_max_size`:
`if size and size >= max_size: return True` — a `None` or zero size is falsy,
so the guard is `size ≠ 0 and size ≥ max_size`. -/
def has_exceeded_max_size (g : Script) (max_size : ℚ) : BoolResult :=
  match takePos g with
  | (.err e, g1) => .raised e g1 []
  | (.ok ps, g1) =>
    let t := get_open_positions ps
    let tr := [Effect.fetchPositions t.side t.size]
    match t.size with
    | none => .done false g1 tr
    | some s => .done (decide (s ≠ 0) && decide (s ≥ max_size)) g1 tr

/-- `BinanceFuturesTradingAdapter.is_last_order_open`: an empty order list
gives `False`, otherwise the status of the last order is compared to
`"open"`. -/
def is_last_order_open (g : Script) : BoolResult :=
  match takeOrders g with
  | (.err e, g1) => .raised e g1 []
  | (.ok orders, g1) =>
    let tr := [Effect.fetchOrders]
    match orders.getLast? with
    | none => .done false g1 tr
    | some st => .done (decide (st = sOpen)) g1 tr

/-- `BinanceFuturesTradingAdapter.can_open_position_by_default_rule`:
deny when `has_exceeded_max_size`; deny when the current side (from a second
`get_open_positions` read) opposes `expected_side`; deny when
`is_last_order_open`; otherwise allow.  Short-circuiting: each denial returns
before the later gateway calls are made. -/
def can_open_position_by_default_rule (g : Script) (max_size : ℚ)
    (expected_side : String) : BoolResult :=
  match has_exceeded_max_size g max_size with
  | .raised e g1 tr => .raised e g1 tr
  | .done b g1 tr =>
    if b then .done false g1 tr
    else
      match takePos g1 with
      | (.err e, g2) => .raised e g2 tr
      | (.ok ps, g2) =>
        let t := get_open_positions ps
        let current_side := t.side
        let tr2 := tr ++ [Effect.fetchPositions t.side t.size]
        if (expected_side = sLong ∧ current_side = some sShort)
            ∨ (expected_side = sShort ∧ current_side = some sLong) then
          .done false g2 tr2
        else
          match is_last_order_open g2 with
          | .raised e g3 tr3 => .raised e g3 (tr2 ++ tr3)
          | .done bo g3 tr3 =>
            if bo then .done false g3 (tr2 ++ tr3)
            else .done true g3 (tr2 ++ tr3)

/-- Whether an effect is a limit-order submission. -/
def isCreate : Effect → Bool
  | .createOrder _ _ _ => true
  | _ => false

/-- Whether an effect is a position fetch. -/
def isFetchPos : Effect → Bool
  | .fetchPositions _ _ => true
  | _ => false

/-- A raw LONG position of size 2 (scenario data). -/
def pLong2 : PosInfo := ⟨some sLong, some 2, 0, 0, 0, 0⟩

/-- Script for the close-loop submission-failure scenario: one open LONG read,
the cancel and book calls succeed, the limit-order submission is rejected. -/
def c1Script : Script :=
  ⟨[.ok [pLong2]], [.ok (1, 2)], [.ok ()], [.err .orderRejected], []⟩

/-- Script of the spec's scripted-gateway termination scenario: position reads
report size 2 (open LONG) and then flat; one successful cancel, book read and
order submission. -/
def c2Script : Script :=
  ⟨[.ok [pLong2], .ok []], [.ok (1, 2)], [.ok ()], [.ok ()], []⟩

/-- The effect trace of running `close_position` on `c2Script` with fuel 2. -/
def c2Trace : List Effect :=
  [Effect.fetchPositions (some sLong) (some 2), Effect.cancelAllOrders,
   Effect.fetchOrderBook 1 2, Effect.createOrder sSell 2 2, Effect.sleep,
   Effect.fetchPositions none none]

/-- Script for one close cycle against an open LONG of size 2 with top of
book (3, 7), all calls succeeding. -/
def c3Script : Script := ⟨[.ok [pLong2]], [.ok (3, 7)], [.ok ()], [.ok ()], []⟩

/-- An open LONG raw position whose PnL percent is -5 (stop-loss scenario). -/
def pLongLoss : PosInfo := ⟨some sLong, some 2, 100, 0, -5, -3⟩

/-- Script for the notification-ordering scenario: the PnL read reports an
open LONG at -5 percent; the close loop's first read already reports flat. -/
def c8Script : Script := ⟨[.ok [pLongLoss], .ok []], [], [], [], []⟩

/-- A raw LONG position of size 0.004 (admission-control scenario). -/
def pLongSmall : PosInfo := ⟨some sLong, some (mkRat 4 1000), 0, 0, 0, 0⟩

/-- Script for the max-size admission scenario: every position read reports
the 0.004 LONG position; no order is pending. -/
def c6Script : Script :=
  ⟨[.ok [pLongSmall], .ok [pLongSmall]], [], [], [], [.ok []]⟩

/-- A raw SHORT position of size 0.001 (opposite-side admission scenario). -/
def pShortSmall : PosInfo := ⟨some sShort, some (mkRat (-1) 1000), 0, 0, 0, 0⟩

/-- Script for the opposite-side admission scenario: both position reads
report the 0.001 SHORT position; the last order is filled. -/
def c7Script : Script :=
  ⟨[.ok [pShortSmall], .ok [pShortSmall]], [], [], [], [.ok [sClosed]]⟩

/-- A raw SHORT position with a negative signed amount (normalization
scenario). -/
def pShortRaw : PosInfo := ⟨some sShort, some (-2), 150, -300, 1, 3⟩

/-- `round2` is the round-half-up formula `⌊100 * x + 1 / 2⌋ / 100`. -/
theorem round2_eq_floor (x : ℚ) :
    round2 x = ((⌊100 * x + 1 / 2⌋ : ℤ) : ℚ) / 100 := by
  have hd : ((2 * x.den : ℕ) : ℚ) ≠ 0 := by
    exact_mod_cast Nat.mul_ne_zero two_ne_zero x.den_nz
  have hx : (x.num : ℚ) = x * (x.den : ℚ) :=
    (div_eq_iff (by exact_mod_cast x.den_nz)).mp (Rat.num_div_den x)
  have h1 : (100 : ℚ) * x + 1 / 2 =
      ((200 * x.num + (x.den : ℤ) : ℤ) : ℚ) / ((2 * x.den : ℕ) : ℚ) := by
    rw [eq_div_iff hd]
    push_cast
    rw [hx]
    ring
  rw [h1, Rat.floor_intCast_div_natCast, round2, Rat.mkRat_eq_div]
  push_cast
  norm_num

/-- The `position_open` component of `get_open_positions` is the openness
test of the `side` component. -/
theorem get_open_positions_open (ps : List PosInfo) :
    (get_open_positions ps).position_open = openSide (get_open_positions ps).side := by
  cases ps <;> rfl

/-- A cycle that breaks out of the loop does so on a snapshot read reporting
no open position, and that read is the cycle's only effect. -/
theorem close_cycle_closed (p2p : ℚ → ℚ) (g g1 : Script) (tr : List Effect)
    (h : close_cycle p2p g = (CycleOut.closed, g1, tr)) :
    ∃ s z, tr = [Effect.fetchPositions s z] ∧ openSide s = false := by
  unfold close_cycle at h
  split at h
  · simp at h
  next ps g1' heq =>
    dsimp only at h
    cases ho : (get_open_positions ps).position_open
    · rw [ho] at h
      simp only [Prod.mk.injEq] at h
      exact ⟨_, _, h.2.2.symm, by rw [← get_open_positions_open]; exact ho⟩
    · rw [ho] at h
      repeat' split at h
      all_goals simp_all

/-- No cycle of the close loop ever sends a notification. -/
theorem close_cycle_no_send (p2p : ℚ → ℚ) (g : Script) (o : CycleOut)
    (g1 : Script) (tr : List Effect) (h : close_cycle p2p g = (o, g1, tr))
    (k : String) : Effect.sendMessage k ∉ tr := by
  unfold close_cycle at h
  split at h
  · simp only [Prod.mk.injEq] at h
    simp [← h.2.2]
  next ps g1' heq =>
    dsimp only at h
    cases ho : (get_open_positions ps).position_open <;> rw [ho] at h
    · simp only [Prod.mk.injEq] at h
      simp [← h.2.2]
    · repeat' split at h
      all_goals (simp only [Prod.mk.injEq] at h; obtain ⟨h1, h2, h3⟩ := h; subst h3; simp)

/-- `close_position` never sends a notification, whatever its outcome. -/
theorem close_position_no_send (p2p : ℚ → ℚ) (fuel : ℕ) (g : Script)
    (k : String) : Effect.sendMessage k ∉ (close_position p2p fuel g).trace := by
  induction fuel generalizing g with
  | zero => simp [close_position, RunResult.trace]
  | succ fuel ih =>
    rw [close_position]
    split
    next g1 tr heq =>
      simpa [RunResult.trace] using close_cycle_no_send p2p g _ g1 tr heq k
    next e g1 tr heq =>
      simpa [RunResult.trace] using close_cycle_no_send p2p g _ g1 tr heq k
    next g1 tr heq =>
      have h1 := close_cycle_no_send p2p g _ g1 tr heq k
      have ih1 := ih g1
      split
      next g3 tr2 heq2 =>
        rw [heq2] at ih1
        simp only [RunResult.trace] at ih1 ⊢
        simp [List.mem_append, h1, ih1]
      next e g3 tr2 heq2 =>
        rw [heq2] at ih1
        simp only [RunResult.trace] at ih1 ⊢
        simp [List.mem_append, h1, ih1]
      next g3 tr2 heq2 =>
        rw [heq2] at ih1
        simp only [RunResult.trace] at ih1 ⊢
        simp [List.mem_append, h1, ih1]

/-- When `close_position` returns, its trace ends with a position read
reporting no open position (the FLAT snapshot that exits the loop). -/
theorem close_position_done_flat (p2p : ℚ → ℚ) (fuel : ℕ) (g g2 : Script)
    (tr : List Effect) (h : close_position p2p fuel g = RunResult.done g2 tr) :
    ∃ pre s z, tr = pre ++ [Effect.fetchPositions s z] ∧ openSide s = false := by
  induction fuel generalizing g g2 tr with
  | zero => simp [close_position] at h
  | succ fuel ih =>
    rw [close_position] at h
    split at h
    next g1 tr1 heq =>
      obtain ⟨rfl, rfl⟩ : g1 = g2 ∧ tr1 = tr := by simpa using h
      obtain ⟨s, z, htr, hflat⟩ := close_cycle_closed p2p g g1 tr1 heq
      exact ⟨[], s, z, by simpa using htr, hflat⟩
    next e g1 tr1 heq => simp at h
    next g1 tr1 heq =>
      split at h
      next g3 tr2 heq2 =>
        simp only [RunResult.done.injEq] at h
        obtain ⟨rfl, rfl⟩ := h
        obtain ⟨pre2, s, z, htr2, hflat⟩ := ih g1 g3 tr2 heq2
        exact ⟨tr1 ++ pre2, s, z, by rw [htr2, List.append_assoc], hflat⟩
      next e g3 tr2 heq2 => simp at h
      next g3 tr2 heq2 => simp at h

/-- A split of a list at a `sendMessage` element exhibits that element as a
member. -/
theorem send_mem_of_split (l pre post : List Effect) (k : String)
    (h : l = pre ++ Effect.sendMessage k :: post) : Effect.sendMessage k ∈ l := by
  subst h
  exact List.mem_append_right _ (List.mem_cons_self _ _)

/-- If a list is some send-free prefix followed by one final `sendMessage`,
then any split of it at a `sendMessage` splits exactly at that last
element. -/
theorem pre_of_split_send_last (init pre post : List Effect) (m k : String)
    (hno : ∀ j : String, Effect.sendMessage j ∉ init)
    (h : init ++ [Effect.sendMessage m] = pre ++ Effect.sendMessage k :: post) :
    pre = init := by
  have htot : init.length + 1 = pre.length + (post.length + 1) := by
    have hc := congrArg List.length h
    simpa [List.length_append] using hc
  have hlen_ge : init.length ≤ pre.length := by
    by_contra hlt
    push_neg at hlt
    have h1 : (init ++ [Effect.sendMessage m])[pre.length]? =
        some (Effect.sendMessage k) := by
      rw [h, List.getElem?_append_right (le_refl pre.length)]
      simp
    rw [List.getElem?_append_left hlt] at h1
    obtain ⟨hlt2, hget⟩ := List.getElem?_eq_some.mp h1
    exact hno k (hget ▸ List.getElem_mem hlt2)
  have hlen : pre.length = init.length := le_antisymm (by omega) hlen_ge
  exact ((List.append_inj h hlen.symm).1).symm

/-- Claim C1, counterexample: when the close loop's limit-order submission is
rejected, the exception escapes `close_position` (with the submission never
recorded): the cycle's failure is not absorbed inside the loop. -/
theorem close_position_submission_failure_escapes :
    close_position id 1 c1Script =
      RunResult.raised Err.orderRejected ⟨[], [], [], [], []⟩
        [Effect.fetchPositions (some sLong) (some 2), Effect.cancelAllOrders,
         Effect.fetchOrderBook 1 2] := by
  decide

/-- Claim C1 (amended): a submission (or any gateway) failure inside the close
loop raises out of `close_position`; it is absorbed one level up, in
`close_allowed_positions`, whose `try/except` catches and logs every escaping
exception, so no such failure ever reaches the driver — the retry happens on
the driver's next invocation rather than on the next cycle of the same
loop. -/
theorem close_allowed_positions_absorbs_all_errors
    (p2p : ℚ → ℚ) (fuel : ℕ) (g : Script) (loss target : ℚ) :
    (close_allowed_positions p2p fuel g loss target).isRaised = false := by
  simp only [close_allowed_positions]
  split
  · rfl
  · split <;> rfl

/-- Claim C4, counterexample: with raw PnL percent -4.004 strictly below the
stop-loss threshold -4 and a degenerate take-profit threshold -5, the
adapter's evaluator (which compares `round(percent, 2) = -4.00`) selects
CLOSE_TAKE_PROFIT, not CLOSE_STOP_LOSS. -/
theorem close_pnl_adapter_stop_loss_rounding_cex :
    (mkRat (-4004) 1000 < (-4 : ℚ))
      ∧ close_pnl_decision_adapter (some (mkRat (-4004) 1000)) true (-4) (-5) =
          CloseAction.takeProfit := by
  decide

/-- Claim C4 (amended): the stop-loss branch is decided strictly before the
take-profit branch in both evaluators, whatever the thresholds (degenerate
policies included); the helper evaluators trigger it whenever the raw percent
is strictly below the stop-loss threshold, the adapter whenever the percent
rounded to 2 decimals is. -/
theorem close_pnl_stop_loss_precedence (p loss target : ℚ) :
    (p < loss → close_pnl_decision (some p) loss target = CloseAction.stopLoss)
      ∧ (round2 p < loss →
          close_pnl_decision_adapter (some p) true loss target = CloseAction.stopLoss) := by
  constructor
  · intro h
    simp [close_pnl_decision, if_pos h]
  · intro h
    simp [close_pnl_decision_adapter, if_pos h]

/-- Witness for C4's amended theorem at percent -5, stop-loss -4, take-profit
-10 (degenerate: -5 also satisfies the take-profit condition). -/
theorem close_pnl_stop_loss_precedence_witness :
    close_pnl_decision (some (-5)) (-4) (-10) = CloseAction.stopLoss
      ∧ close_pnl_decision_adapter (some (-5)) true (-4) (-10) = CloseAction.stopLoss :=
  ⟨(close_pnl_stop_loss_precedence (-5) (-4) (-10)).1 (by decide),
   (close_pnl_stop_loss_precedence (-5) (-4) (-10)).2 (by decide)⟩

/-- Claim C5, counterexample: percent 7.996 lies strictly between the
thresholds -4 and 8, yet the adapter's evaluator rounds it to 8.00 and selects
CLOSE_TAKE_PROFIT instead of no action. -/
theorem close_pnl_adapter_between_thresholds_cex :
    ((-4 : ℚ) ≤ mkRat 7996 1000) ∧ (mkRat 7996 1000 < (8 : ℚ))
      ∧ close_pnl_decision_adapter (some (mkRat 7996 1000)) true (-4) 8 =
          CloseAction.takeProfit := by
  decide

/-- Claim C5 (amended): the stop-loss comparison is strict and the take-profit
comparison is inclusive in both evaluators, so a compared value strictly
between the thresholds yields no action — for the helper evaluators the
compared value is the raw percent, for the adapter it is the percent rounded
to 2 decimals. -/
theorem close_pnl_between_thresholds_none (p loss target : ℚ) :
    (loss ≤ p → p < target → close_pnl_decision (some p) loss target = CloseAction.noAction)
      ∧ (loss ≤ round2 p → round2 p < target →
          close_pnl_decision_adapter (some p) true loss target = CloseAction.noAction) := by
  constructor
  · intro h1 h2
    simp [close_pnl_decision, if_neg (not_lt.mpr h1), if_neg (not_le.mpr h2)]
  · intro h1 h2
    simp [close_pnl_decision_adapter, if_neg (not_lt.mpr h1), if_neg (not_le.mpr h2)]

/-- Witness for C5's amended theorem at percent 0.5 between thresholds -4 and
8. -/
theorem close_pnl_between_thresholds_none_witness :
    close_pnl_decision (some (mkRat 1 2)) (-4) 8 = CloseAction.noAction
      ∧ close_pnl_decision_adapter (some (mkRat 1 2)) true (-4) 8 = CloseAction.noAction :=
  ⟨(close_pnl_between_thresholds_none (mkRat 1 2) (-4) 8).1 (by decide) (by decide),
   (close_pnl_between_thresholds_none (mkRat 1 2) (-4) 8).2 (by decide) (by decide)⟩

/-- Claim C10, counterexample: at percent 7.996 with thresholds -4 and 8 the
helper evaluator selects no action while the adapter (comparing the rounded
percent 8.00) selects CLOSE_TAKE_PROFIT — the two evaluators are not
decision-equivalent. -/
theorem pnl_evaluators_not_equivalent_cex :
    close_pnl_decision (some (mkRat 7996 1000)) (-4) 8 ≠
      close_pnl_decision_adapter (some (mkRat 7996 1000)) true (-4) 8 := by
  decide

/-- Claim C10 (amended): the helper's and the adapter's PnL evaluators are
decision-equivalent on every open snapshot whose percent is unchanged by
rounding to 2 decimal places (in particular on every percent that is an exact
multiple of 0.01). -/
theorem pnl_evaluators_agree_on_round2_fixed (p loss target : ℚ)
    (h : round2 p = p) :
    close_pnl_decision (some p) loss target =
      close_pnl_decision_adapter (some p) true loss target := by
  simp [close_pnl_decision, close_pnl_decision_adapter, h]

/-- Witness for C10's amended theorem at the 2-decimal percent -5. -/
theorem pnl_evaluators_agree_on_round2_fixed_witness :
    close_pnl_decision (some (-5)) (-4) 8 =
      close_pnl_decision_adapter (some (-5)) true (-4) 8 :=
  pnl_evaluators_agree_on_round2_fixed (-5) (-4) 8 (by decide)

/-- Claim C9: a raw gateway position reported with a negative signed amount
and the SHORT side normalizes to a snapshot whose size is the non-negative
magnitude of the amount and whose side is SHORT. -/
theorem short_position_normalization (p : PosInfo) (rest : List PosInfo) (a : ℚ)
    (hamt : p.positionAmt = some a) (hneg : a < 0) (hside : p.side = some sShort) :
    (get_open_positions (p :: rest)).size = some |a|
      ∧ (0 : ℚ) ≤ |a| ∧ |a| = -a
      ∧ (get_open_positions (p :: rest)).side = some sShort := by
  refine ⟨by simp [get_open_positions, hamt], abs_nonneg a, abs_of_neg hneg,
    by simp [get_open_positions, hside]⟩

/-- Witness for C9 at the raw short position with amount -2. -/
theorem short_position_normalization_witness :
    (get_open_positions [pShortRaw]).size = some |(-2 : ℚ)|
      ∧ (0 : ℚ) ≤ |(-2 : ℚ)| ∧ |(-2 : ℚ)| = -(-2 : ℚ)
      ∧ (get_open_positions [pShortRaw]).side = some sShort :=
  short_position_normalization pShortRaw [] (-2) rfl (by decide) rfl

/-- Claim C2: on the scripted gateway whose position reads report size 2
(open LONG) and then flat after one submitted order, the close loop returns
within two cycles (and not within one), its trace holds exactly two position
reads and exactly one order submission, it ends in the returned/CLOSED state,
and — in general — a fresh snapshot reporting no open position is the only
way the loop ever returns. -/
theorem close_position_scripted_two_cycles :
    close_position id 2 c2Script = RunResult.done ⟨[], [], [], [], []⟩ c2Trace
      ∧ c2Trace.countP isFetchPos = 2
      ∧ c2Trace.countP isCreate = 1
      ∧ close_position id 1 c2Script =
          RunResult.outOfFuel ⟨[.ok []], [], [], [], []⟩ (c2Trace.take 5)
      ∧ (∀ (p2p : ℚ → ℚ) (fuel : ℕ) (g g2 : Script) (tr : List Effect),
          close_position p2p fuel g = RunResult.done g2 tr →
          ∃ pre s z, tr = pre ++ [Effect.fetchPositions s z] ∧ openSide s = false) :=
  ⟨by decide, by decide, by decide, by decide, close_position_done_flat⟩

/-- Witness for C2's general exit condition at the scripted gateway: the
two-cycle trace indeed ends with a flat position read. -/
theorem close_position_scripted_two_cycles_witness :
    ∃ pre s z, c2Trace = pre ++ [Effect.fetchPositions s z] ∧ openSide s = false :=
  close_position_scripted_two_cycles.2.2.2.2 id 2 c2Script ⟨[], [], [], [], []⟩
    c2Trace (by decide)

/-- Claim C3: in a cycle whose fresh snapshot reports LONG, the loop cancels
all resting orders and then submits a limit SELL at the rounded best ask
(`p2p ask`) for exactly the snapshot's size; on SHORT it submits a limit BUY
at the rounded best bid for exactly the snapshot's size — as the recorded
effect order shows, the cancel precedes the submission. -/
theorem close_cycle_long_sell_short_buy (p2p : ℚ → ℚ) (g : Script) (p : PosInfo)
    (a bid ask : ℚ) (r1 : List (GwRes (List PosInfo))) (r2 : List (GwRes Unit))
    (r3 : List (GwRes (ℚ × ℚ))) (r4 : List (GwRes Unit))
    (h1 : g.posReads = .ok [p] :: r1)
    (h2 : g.cancels = .ok () :: r2)
    (h3 : g.books = .ok (bid, ask) :: r3)
    (h4 : g.creates = .ok () :: r4)
    (h5 : p.positionAmt = some a) :
    (p.side = some sLong →
      close_cycle p2p g = (CycleOut.again, ⟨r1, r3, r2, r4, g.orderReads⟩,
        [Effect.fetchPositions (some sLong) (some |a|), Effect.cancelAllOrders,
         Effect.fetchOrderBook bid ask, Effect.createOrder sSell (p2p ask) |a|,
         Effect.sleep]))
    ∧ (p.side = some sShort →
      close_cycle p2p g = (CycleOut.again, ⟨r1, r3, r2, r4, g.orderReads⟩,
        [Effect.fetchPositions (some sShort) (some |a|), Effect.cancelAllOrders,
         Effect.fetchOrderBook bid ask, Effect.createOrder sBuy (p2p bid) |a|,
         Effect.sleep])) := by
  obtain ⟨gp, gb, gc, gcr, go⟩ := g
  dsimp only at h1 h2 h3 h4
  subst h1 h2 h3 h4
  constructor <;> intro hs <;>
    simp [close_cycle, takePos, takeCancel, takeBook, takeCreate, h5, hs,
      get_open_positions, openSide, sLong, sShort]

/-- Witness for C3 at a LONG position of size 2 with top of book (3, 7). -/
theorem close_cycle_long_sell_short_buy_witness :
    close_cycle id c3Script = (CycleOut.again, ⟨[], [], [], [], []⟩,
      [Effect.fetchPositions (some sLong) (some |(2 : ℚ)|), Effect.cancelAllOrders,
       Effect.fetchOrderBook 3 7, Effect.createOrder sSell 7 |(2 : ℚ)|,
       Effect.sleep]) :=
  (close_cycle_long_sell_short_buy id c3Script pLong2 2 3 7 [] [] [] []
    rfl rfl rfl rfl rfl).1 rfl

/-- Claim C8: wherever a notification send appears in the trace of
`close_pnl_position`, a position read reporting no open position precedes it —
the message is emitted only after the close loop has observed a flat
snapshot and returned. -/
theorem notification_after_flat_confirm (p2p : ℚ → ℚ) (fuel : ℕ) (g : Script)
    (loss target : ℚ) (pre post : List Effect) (k : String)
    (h : (close_pnl_position p2p fuel g loss target).trace =
        pre ++ Effect.sendMessage k :: post) :
    ∃ s z, Effect.fetchPositions s z ∈ pre ∧ openSide s = false := by
  unfold close_pnl_position at h
  split at h
  next e g1 heq =>
    simp [RunResult.trace] at h
  next ps g1 heq =>
    dsimp only at h
    cases hdec : close_pnl_decision_adapter (get_open_positions ps).percentage
        (get_open_positions ps).position_open loss target <;> rw [hdec] at h
    case noAction =>
      simp only [RunResult.trace] at h
      have hmem := send_mem_of_split _ pre post k h
      simp at hmem
    case stopLoss =>
      cases hcp : close_position p2p fuel g1 <;> rw [hcp] at h <;>
        simp only [RunResult.trace] at h
      case done g2 tr2 =>
        have hno : ∀ j : String, Effect.sendMessage j ∉
            [Effect.fetchPositions (get_open_positions ps).side
              (get_open_positions ps).size] ++ tr2 := by
          intro j hj
          rcases List.mem_append.mp hj with hj1 | hj2
          · simp at hj1
          · have := close_position_no_send p2p fuel g1 j
            rw [hcp] at this
            exact this hj2
        have hpre := pre_of_split_send_last _ pre post msgStopLoss k hno h
        obtain ⟨pre2, s, z, htr2, hflat⟩ :=
          close_position_done_flat p2p fuel g1 g2 tr2 hcp
        refine ⟨s, z, ?_, hflat⟩
        rw [hpre, htr2]
        exact List.mem_append_right _ (List.mem_append_right _ (by simp))
      case raised e g2 tr2 =>
        have hmem := send_mem_of_split _ pre post k h
        rcases List.mem_append.mp hmem with hj1 | hj2
        · simp at hj1
        · have := close_position_no_send p2p fuel g1 k
          rw [hcp] at this
          exact absurd hj2 this
      case outOfFuel g2 tr2 =>
        have hmem := send_mem_of_split _ pre post k h
        rcases List.mem_append.mp hmem with hj1 | hj2
        · simp at hj1
        · have := close_position_no_send p2p fuel g1 k
          rw [hcp] at this
          exact absurd hj2 this
    case takeProfit =>
      cases hcp : close_position p2p fuel g1 <;> rw [hcp] at h <;>
        simp only [RunResult.trace] at h
      case done g2 tr2 =>
        have hno : ∀ j : String, Effect.sendMessage j ∉
            [Effect.fetchPositions (get_open_positions ps).side
              (get_open_positions ps).size] ++ tr2 := by
          intro j hj
          rcases List.mem_append.mp hj with hj1 | hj2
          · simp at hj1
          · have := close_position_no_send p2p fuel g1 j
            rw [hcp] at this
            exact this hj2
        have hpre := pre_of_split_send_last _ pre post msgTakeProfit k hno h
        obtain ⟨pre2, s, z, htr2, hflat⟩ :=
          close_position_done_flat p2p fuel g1 g2 tr2 hcp
        refine ⟨s, z, ?_, hflat⟩
        rw [hpre, htr2]
        exact List.mem_append_right _ (List.mem_append_right _ (by simp))
      case raised e g2 tr2 =>
        have hmem := send_mem_of_split _ pre post k h
        rcases List.mem_append.mp hmem with hj1 | hj2
        · simp at hj1
        · have := close_position_no_send p2p fuel g1 k
          rw [hcp] at this
          exact absurd hj2 this
      case outOfFuel g2 tr2 =>
        have hmem := send_mem_of_split _ pre post k h
        rcases List.mem_append.mp hmem with hj1 | hj2
        · simp at hj1
        · have := close_position_no_send p2p fuel g1 k
          rw [hcp] at this
          exact absurd hj2 this

/-- Witness for C8 at the stop-loss scenario script: the send in the concrete
trace is preceded by the flat-confirming read. -/
theorem notification_after_flat_confirm_witness :
    ∃ s z, Effect.fetchPositions s z ∈
        [Effect.fetchPositions (some sLong) (some 2),
         Effect.fetchPositions none none]
      ∧ openSide s = false :=
  notification_after_flat_confirm id 1 c8Script (-4) 8
    [Effect.fetchPositions (some sLong) (some 2),
     Effect.fetchPositions none none] [] msgStopLoss (by decide)

/-- Claim C6: whenever the reported position size is at least `max_size` (with
`max_size` positive, per the policy's data model), `canOpen` denies —
regardless of `expected_side`, of the position's side, and of the rest of the
script (pending orders included): the max-size check is evaluated first and
short-circuits. -/
theorem can_open_denies_max_size (g : Script) (max_size : ℚ)
    (expected_side : String) (p : PosInfo) (a : ℚ)
    (rest : List (GwRes (List PosInfo)))
    (h1 : g.posReads = .ok [p] :: rest) (h2 : p.positionAmt = some a)
    (h3 : max_size ≤ |a|) (h4 : 0 < max_size) :
    (can_open_position_by_default_rule g max_size expected_side).value = some false := by
  have ha0 : ¬|a| = 0 := ne_of_gt (lt_of_lt_of_le h4 h3)
  simp [can_open_position_by_default_rule, has_exceeded_max_size, takePos, h1,
    get_open_positions, h2, BoolResult.value, ha0, h3]

/-- Witness for C6 at the spec's scenario: `maxExposureSize = 0.004`, current
size `0.004`, `expectedSide = long`. -/
theorem can_open_denies_max_size_witness :
    (can_open_position_by_default_rule c6Script (mkRat 4 1000) sLong).value =
      some false :=
  can_open_denies_max_size c6Script (mkRat 4 1000) sLong pLongSmall
    (mkRat 4 1000) [.ok [pLongSmall]] rfl rfl (by decide) (by decide)

/-- Claim C7: with the reported size below `max_size` and no pending open
order, `canOpen` denies whenever the current side opposes `expected_side`;
and the whole check never submits or cancels an order — its effect trace
contains no `createOrder` and no `cancelAllOrders`. -/
theorem can_open_denies_opposite_side (g : Script) (max_size : ℚ)
    (expected_side : String) (p : PosInfo) (a : ℚ)
    (rest : List (GwRes (List PosInfo)))
    (sts : List String) (rest2 : List (GwRes (List String)))
    (h1 : g.posReads = .ok [p] :: .ok [p] :: rest)
    (h2 : p.positionAmt = some a)
    (h3 : |a| < max_size)
    (h4 : g.orderReads = .ok sts :: rest2)
    (h5 : sts.getLast? ≠ some sOpen)
    (h6 : (expected_side = sLong ∧ p.side = some sShort)
        ∨ (expected_side = sShort ∧ p.side = some sLong)) :
    (can_open_position_by_default_rule g max_size expected_side).value = some false
      ∧ (∀ sd pr am, Effect.createOrder sd pr am ∉
          (can_open_position_by_default_rule g max_size expected_side).trace)
      ∧ Effect.cancelAllOrders ∉
          (can_open_position_by_default_rule g max_size expected_side).trace := by
  have hmax : ¬max_size ≤ |a| := not_le.mpr h3
  refine ⟨?_, ?_, ?_⟩ <;>
    simp [can_open_position_by_default_rule, has_exceeded_max_size, takePos, h1,
      get_open_positions, h2, BoolResult.value, BoolResult.trace, hmax, h6]

/-- Witness for C7: current 0.001 SHORT position, max size 0.004, requested
LONG, last order closed. -/
theorem can_open_denies_opposite_side_witness :
    (can_open_position_by_default_rule c7Script (mkRat 4 1000) sLong).value =
      some false :=
  (can_open_denies_opposite_side c7Script (mkRat 4 1000) sLong pShortSmall
    (mkRat (-1) 1000) [] [sClosed] [] rfl rfl (by decide) rfl (by decide)
    (Or.inl ⟨rfl, rfl⟩)).1

end CryptoBot
